import Mathlib

/-!
Shallow embedding of the Django messaging pipeline found in
src/Django-signals_orm-0x04/messaging (models.py, signals.py, views.py).

Modelling conventions:
* Each database table is a list of records inside a `Store`; a row's primary
  key is a `Nat` where the code relies on one (messages, users).  Timestamps
  are `Nat`.  JSON metadata is an association list of `String × MetaVal`.
* Django signal dispatch is replaced by explicit sequential calls: saving a
  message runs the `pre_save` handler `log_message_edit`, commits the row,
  then runs the `post_save` handler `create_notification_on_message`.
* Deleting rows follows Django `on_delete` semantics declared in models.py:
  deleting a message cascades to its replies (`parent_message`), its
  `MessageHistory` rows and its linked `Notification` rows; deleting a user
  cascades to messages sent/received, notifications, and `EventLog` rows
  whose `related_user` is the user (all declared `CASCADE`), while
  `MessageHistory.edited_by` is `SET_NULL`.  A queryset `delete()` count is
  Django's first return component: the total number of rows removed,
  cascaded rows included.
* The `post_delete` handler `cleanup_user_data` therefore runs on the store
  state left after the foreign-key cascade, exactly as in Django.
* Fields not used by any verified property (auto timestamps of side tables,
  admin display helpers) are omitted.
-/

/-- A JSON metadata value: the handlers only store strings and integers. -/
inductive MetaVal where
  | str : String → MetaVal
  | nat : Nat → MetaVal
deriving DecidableEq, Repr

/-- django.contrib.auth.models.User, restricted to the fields the pipeline
reads (id, username, email). -/
structure User where
  id : Nat
  username : String
  email : String
deriving DecidableEq, Repr

/-- messaging.models.Message. -/
structure Message where
  id : Nat
  sender : Nat
  receiver : Nat
  parent_message : Option Nat
  subject : String
  content : String
  is_read : Bool
  edited : Bool
  timestamp : Nat
deriving DecidableEq, Repr

/-- messaging.models.MessageHistory. -/
structure MessageHistory where
  message : Nat
  old_content : String
  old_subject : String
  edited_by : Option Nat
deriving DecidableEq, Repr

/-- messaging.models.Notification. -/
structure Notification where
  user : Nat
  notification_type : String
  message : Option Nat
  title : String
  description : String
  is_read : Bool
deriving DecidableEq, Repr

/-- messaging.models.EventLog. -/
structure EventLog where
  event_type : String
  related_user : Option Nat
  description : String
  metadata : List (String × MetaVal)
deriving DecidableEq, Repr

/-- The database state: one list per table. -/
structure Store where
  users : List User
  messages : List Message
  histories : List MessageHistory
  notifications : List Notification
  eventLogs : List EventLog
deriving DecidableEq, Repr

/-- `inst.sender.username` style lookup: resolve a user id to its
username (empty string if the row is absent, which the pipeline never
relies on). -/
def usernameOf (s : Store) (uid : Nat) : String :=
  match s.users.find? (fun u => u.id == uid) with
  | some u => u.username
  | none => ""

/-- Look up one key of an EventLog metadata object. -/
def lookupMeta (e : EventLog) (key : String) : Option MetaVal :=
  match e.metadata.find? (fun kv => kv.1 == key) with
  | some kv => some kv.2
  | none => none

/-- Number of EventLog rows of a given event type. -/
def countEventType (s : Store) (t : String) : Nat :=
  (s.eventLogs.filter (fun e => e.event_type == t)).length

/-- The EventLog row appended by `log_message_edit` (signals.py): type
`user_updated`, related to the sender, metadata with the message id and the
old and new subject. -/
def editEventLog (s : Store) (old inst : Message) : EventLog :=
  { event_type := "user_updated"
    related_user := some inst.sender
    description := "Message " ++ inst.subject ++ " was edited by " ++
      usernameOf s inst.sender
    metadata := [("message_id", MetaVal.nat inst.id),
                 ("old_subject", MetaVal.str old.subject),
                 ("new_subject", MetaVal.str inst.subject)] }

/-- signals.py `log_message_edit`, the `pre_save` receiver on Message.
It reads the currently stored row with the instance's pk; when the row is
absent (first save) it does nothing.  When content or subject changed it
creates a history snapshot only on a content change, flips the in-memory
instance's `edited` flag and appends an audit event.  Returns the store
after the handler's own writes together with the (possibly modified)
instance that will be committed. -/
def log_message_edit (s : Store) (inst : Message) : Store × Message :=
  match s.messages.find? (fun m => m.id == inst.id) with
  | none => (s, inst)
  | some old =>
    if old.content ≠ inst.content ∨ old.subject ≠ inst.subject then
      let s1 :=
        if old.content ≠ inst.content then
          { s with histories := s.histories ++
              [{ message := inst.id
                 old_content := old.content
                 old_subject := old.subject
                 edited_by := some inst.sender }] }
        else s
      (( { s1 with eventLogs := s1.eventLogs ++ [editEventLog s1 old inst] } ),
       { inst with edited := true })
    else (s, inst)

/-- Commit a message row: UPDATE when the pk exists, INSERT otherwise.
The second component is Django's `created` flag passed to `post_save`. -/
def commitMessage (s : Store) (m : Message) : Store × Bool :=
  if s.messages.any (fun x => x.id == m.id) then
    ({ s with messages := s.messages.map (fun x => if x.id == m.id then m else x) }, false)
  else
    ({ s with messages := s.messages ++ [m] }, true)

/-- The Notification row created by `create_notification_on_message`. -/
def newMessageNotification (s : Store) (inst : Message) : Notification :=
  { user := inst.receiver
    notification_type := "message_received"
    message := some inst.id
    title := "New message from " ++ usernameOf s inst.sender
    description := usernameOf s inst.sender ++ " sent you a message: " ++
      inst.subject
    is_read := false }

/-- The `notification_sent` EventLog row appended with the notification. -/
def notificationSentLog (inst : Message) : EventLog :=
  { event_type := "notification_sent"
    related_user := some inst.receiver
    description := "Notification created for message " ++ inst.subject
    metadata := [("message_id", MetaVal.nat inst.id),
                 ("sender_id", MetaVal.nat inst.sender),
                 ("subject", MetaVal.str inst.subject),
                 ("receiver_id", MetaVal.nat inst.receiver)] }

/-- signals.py `create_notification_on_message`, the `post_save` receiver on
Message: on creation it stores one Notification for the receiver and one
`notification_sent` EventLog; on an update it does nothing. -/
def create_notification_on_message (s : Store) (inst : Message)
    (created : Bool) : Store :=
  if created then
    { s with
        notifications := s.notifications ++ [newMessageNotification s inst]
        eventLogs := s.eventLogs ++ [notificationSentLog inst] }
  else s

/-- `Message.save()`: `pre_save` handler, row commit, `post_save` handler,
in Django's dispatch order. -/
def saveMessage (s : Store) (inst : Message) : Store :=
  create_notification_on_message
    (commitMessage (log_message_edit s inst).1 (log_message_edit s inst).2).1
    (log_message_edit s inst).2
    (commitMessage (log_message_edit s inst).1 (log_message_edit s inst).2).2

/-- `Message.save()` with an injected failure of the row commit.  The
`pre_save` handler's own ORM writes (the history snapshot and the audit
event) run in autocommit mode before the UPDATE, exactly as in the source,
which wraps nothing in `transaction.atomic`; when the commit fails they
persist while the row update and the `post_save` handler never happen. -/
def saveMessageFallible (s : Store) (inst : Message) (commitOk : Bool) :
    Store :=
  if commitOk then saveMessage s inst else (log_message_edit s inst).1

/-- Outcome of a messaging view, mirroring the JsonResponse statuses used in
views.py: success, 404 Message not found, 403 Permission denied (returned by
`conversation_thread` and `send_reply`), 405 Method not allowed. -/
inductive ViewResult where
  | ok
  | notFound
  | permissionDenied
  | methodNotAllowed
deriving DecidableEq, Repr

/-- views.py `mark_as_read` (POST branch): fetch the message by id AND
receiver = the acting user; on `DoesNotExist` answer 404, otherwise set
`is_read` and save (the save runs the signal handlers, as every save
does). -/
def mark_as_read (s : Store) (actor : Nat) (message_id : Nat) :
    Store × ViewResult :=
  match s.messages.find? (fun m => m.id == message_id && m.receiver == actor) with
  | none => (s, ViewResult.notFound)
  | some m => (saveMessage s { m with is_read := true }, ViewResult.ok)

/-- Descending-timestamp order used by `order_by` on `-timestamp`. -/
def tsGE (a b : Message) : Prop := b.timestamp ≤ a.timestamp

instance : DecidableRel tsGE := fun a b => Nat.decLe b.timestamp a.timestamp

instance : IsTotal Message tsGE :=
  ⟨fun a b => Or.symm (Nat.le_total a.timestamp b.timestamp)⟩

instance : IsTrans Message tsGE :=
  ⟨fun _ _ _ h1 h2 => Nat.le_trans h2 h1⟩

/-- managers/models.py `UnreadMessagesManager.unread_for_user`: messages with
`receiver = user` and `is_read = False`, ordered by timestamp descending. -/
def unread_for_user (s : Store) (uid : Nat) : List Message :=
  List.insertionSort tsGE
    (s.messages.filter (fun m => m.receiver == uid && m.is_read == false))

/-- `UnreadMessagesManager.unread_count_for_user`: `count()` of the same
filter. -/
def unread_count_for_user (s : Store) (uid : Nat) : Nat :=
  (s.messages.filter (fun m => m.receiver == uid && m.is_read == false)).length

/-- One round of Django's delete collector over the `replies` relation: add
every message whose parent is already collected. -/
def expandReplies (msgs : List Message) (dead : List Nat) : List Nat :=
  dead ++ (msgs.filter (fun m =>
    !dead.contains m.id &&
    (match m.parent_message with
     | some p => dead.contains p
     | none => false))).map (fun m => m.id)

/-- Iterate the collector; `msgs.length` rounds reach the fixpoint. -/
def replyClosure (msgs : List Message) : List Nat → Nat → List Nat
  | dead, 0 => dead
  | dead, n + 1 => replyClosure msgs (expandReplies msgs dead) n

/-- Ids of all messages removed when the base set is deleted: the base plus
all transitive replies (`parent_message` is `on_delete=CASCADE`). -/
def msgCascade (msgs : List Message) (base : List Nat) : List Nat :=
  replyClosure msgs base msgs.length

/-- `Message.objects.filter(p).delete()`: removes the matching messages, the
cascade of their replies, their history rows and their linked notifications;
the returned count is the total of removed rows, as in Django. -/
def deleteMessagesWhere (s : Store) (p : Message → Bool) : Store × Nat :=
  let dead := msgCascade s.messages ((s.messages.filter p).map (fun m => m.id))
  let removedMsgs := s.messages.filter (fun m => dead.contains m.id)
  let removedHists := s.histories.filter (fun h => dead.contains h.message)
  let removedNotifs := s.notifications.filter (fun n =>
    match n.message with
    | some mid => dead.contains mid
    | none => false)
  ({ s with
      messages := s.messages.filter (fun m => !dead.contains m.id)
      histories := s.histories.filter (fun h => !dead.contains h.message)
      notifications := s.notifications.filter (fun n =>
        match n.message with
        | some mid => !dead.contains mid
        | none => true) },
   removedMsgs.length + removedHists.length + removedNotifs.length)

/-- `MessageHistory.objects.filter(p).delete()`: histories cascade to
nothing, so the count is the number of matching rows. -/
def deleteHistoriesWhere (s : Store) (p : MessageHistory → Bool) :
    Store × Nat :=
  ({ s with histories := s.histories.filter (fun h => !p h) },
   (s.histories.filter p).length)

/-- `Notification.objects.filter(p).delete()`. -/
def deleteNotificationsWhere (s : Store) (p : Notification → Bool) :
    Store × Nat :=
  ({ s with notifications := s.notifications.filter (fun n => !p n) },
   (s.notifications.filter p).length)

/-- The `message__sender_id` join used by `cleanup_user_data`: a history row
matches when its message exists and was sent by the user. -/
def histSenderIs (msgs : List Message) (h : MessageHistory) (uid : Nat) : Bool :=
  msgs.any (fun m => m.id == h.message && m.sender == uid)

/-- The four per-category counts reported by `cleanup_user_data`. -/
structure CleanupCounts where
  histories : Nat
  sent : Nat
  received : Nat
  notifications : Nat
deriving DecidableEq, Repr

/-- The `user_deleted` summary EventLog appended by `cleanup_user_data`:
no `related_user` reference, username and user id recorded as metadata. -/
def userDeletedLog (username : String) (user_id : Nat) (c : CleanupCounts) :
    EventLog :=
  { event_type := "user_deleted"
    related_user := none
    description := "User " ++ username ++ " account deleted. Cleaned up " ++
      toString (c.histories + c.sent + c.received + c.notifications) ++
      " related records."
    metadata := [("username", MetaVal.str username),
                 ("user_id", MetaVal.nat user_id),
                 ("cleanup_type", MetaVal.str "signal_cascading_delete"),
                 ("deleted_message_histories", MetaVal.nat c.histories),
                 ("deleted_messages_sent", MetaVal.nat c.sent),
                 ("deleted_messages_received", MetaVal.nat c.received),
                 ("deleted_notifications", MetaVal.nat c.notifications),
                 ("total_deleted",
                  MetaVal.nat (c.histories + c.sent + c.received + c.notifications))] }

/-- signals.py `cleanup_user_data`, the `post_delete` receiver on User: four
queryset deletions in source order, then one summary EventLog carrying the
four counts and their sum. -/
def cleanup_user_data (s : Store) (username : String) (user_id : Nat) :
    Store × CleanupCounts :=
  let r1 := deleteHistoriesWhere s (fun h => histSenderIs s.messages h user_id)
  let r2 := deleteMessagesWhere r1.1 (fun m => m.sender == user_id)
  let r3 := deleteMessagesWhere r2.1 (fun m => m.receiver == user_id)
  let r4 := deleteNotificationsWhere r3.1 (fun n => n.user == user_id)
  let c : CleanupCounts := ⟨r1.2, r2.2, r3.2, r4.2⟩
  ({ r4.1 with eventLogs := r4.1.eventLogs ++ [userDeletedLog username user_id c] }, c)

/-- Django's foreign-key cascade performed by `User.delete()` before the
`post_delete` signal fires, per the `on_delete` declarations in models.py:
messages sent or received (and transitively their replies, histories and
linked notifications), notifications of the user, EventLog rows related to
the user are removed; `MessageHistory.edited_by` is set to null. -/
def userCascade (s : Store) (uid : Nat) : Store :=
  let dead := msgCascade s.messages
    ((s.messages.filter (fun m => m.sender == uid || m.receiver == uid)).map
      (fun m => m.id))
  { users := s.users.filter (fun u => u.id != uid)
    messages := s.messages.filter (fun m => !dead.contains m.id)
    histories := (s.histories.filter (fun h => !dead.contains h.message)).map
      (fun h => if h.edited_by == some uid then { h with edited_by := none } else h)
    notifications := s.notifications.filter (fun n =>
      !(n.user == uid) &&
      (match n.message with
       | some mid => !dead.contains mid
       | none => true))
    eventLogs := s.eventLogs.filter (fun e => e.related_user != some uid) }

/-- `user.delete()`: the foreign-key cascade, then the `post_delete` handler
`cleanup_user_data` on the resulting store (with the deleted instance's
username and id, read before deletion). -/
def deleteUser (s : Store) (uid : Nat) : Store × CleanupCounts :=
  cleanup_user_data (userCascade s uid) (usernameOf s uid) uid

/-- Outcome of the root-resolution loop in views.py `send_reply`
(`while root_message.parent_message`): either the root is found or a parent
link points at a missing row (`DoesNotExist` on attribute access). -/
inductive RootResult where
  | found : Message → RootResult
  | danglingParent : RootResult
deriving DecidableEq, Repr

/-- Fuel-indexed semantics of the `send_reply` ascent loop; `none` means the
loop has not finished within the given number of iterations, so
`resolveRootFuel s m n = none` for every `n` is non-termination. -/
def resolveRootFuel (msgs : List Message) : Message → Nat → Option RootResult
  | _, 0 => none
  | m, n + 1 =>
    match m.parent_message with
    | none => some (RootResult.found m)
    | some pid =>
      match msgs.find? (fun x => x.id == pid) with
      | none => some RootResult.danglingParent
      | some p => resolveRootFuel msgs p n

/-- The ascent loop runs forever from `m`. -/
def ascendsForever (msgs : List Message) (m : Message) : Prop :=
  ∀ n, resolveRootFuel msgs m n = none

/-- Ascending-timestamp order used by `replies.all()` with
`order_by(timestamp)`. -/
def tsLE (a b : Message) : Prop := a.timestamp ≤ b.timestamp

instance : DecidableRel tsLE := fun a b => Nat.decLe a.timestamp b.timestamp

/-- The `replies` reverse relation: messages whose parent is `m`, in
timestamp order. -/
def repliesOf (msgs : List Message) (m : Message) : List Message :=
  List.insertionSort tsLE (msgs.filter (fun x => x.parent_message == some m.id))

/-- The nested dict built by views.py `build_thread_structure`: the message,
its depth, and the threads of its replies. -/
inductive Thread where
  | node : Message → Nat → List Thread → Thread

/-- Collect a list of optional threads, failing if any entry failed. -/
def seqThreads : List (Option Thread) → Option (List Thread)
  | [] => some []
  | none :: _ => none
  | some t :: rest =>
    match seqThreads rest with
    | none => none
    | some ts => some (t :: ts)

/-- Fuel-indexed semantics of the recursive `build_thread_structure`;
`none` means the recursion has not finished within the given depth budget. -/
def buildThreadFuel (msgs : List Message) : Nat → Message → Nat → Option Thread
  | 0, _, _ => none
  | n + 1, m, depth =>
    match seqThreads ((repliesOf msgs m).map
        (fun r => buildThreadFuel msgs n r (depth + 1))) with
    | none => none
    | some kids => some (Thread.node m depth kids)

/-- The reply-tree recursion runs forever from `m`. -/
def buildsForever (msgs : List Message) (m : Message) : Prop :=
  ∀ n, buildThreadFuel msgs n m 0 = none

/-- Parent links always point at an earlier (smaller-id) message: the
invariant every store reachable by normal operation satisfies, since a reply
is created after its parent with a fresh larger pk. -/
def ParentsDecreasing (msgs : List Message) : Prop :=
  ∀ m, m ∈ msgs → ∀ p, m.parent_message = some p → p < m.id

/-! ## Concrete stores used by witnesses and counterexamples -/

/-- Demo user 1. -/
def alice : User := ⟨1, "alice", "alice@example.com"⟩

/-- Demo user 2. -/
def bob : User := ⟨2, "bob", "bob@example.com"⟩

/-- A message from alice to bob, as created by the pipeline. -/
def msgHi : Message :=
  { id := 1, sender := 1, receiver := 2, parent_message := none
    subject := "greeting", content := "hi", is_read := false, edited := false
    timestamp := 1 }

/-- The notification created when `msgHi` was sent. -/
def notifHi : Notification :=
  { user := 2, notification_type := "message_received", message := some 1
    title := "New message from alice"
    description := "alice sent you a message: greeting", is_read := false }

/-- The `user_created` EventLog for alice. -/
def logAliceCreated : EventLog :=
  { event_type := "user_created", related_user := some 1
    description := "User alice was created"
    metadata := [("username", MetaVal.str "alice"),
                 ("email", MetaVal.str "alice@example.com")] }

/-- The `user_created` EventLog for bob. -/
def logBobCreated : EventLog :=
  { event_type := "user_created", related_user := some 2
    description := "User bob was created"
    metadata := [("username", MetaVal.str "bob"),
                 ("email", MetaVal.str "bob@example.com")] }

/-- A small store reachable by normal operation: two users, one committed
message with its notification and audit events. -/
def demoStore : Store :=
  { users := [alice, bob]
    messages := [msgHi]
    histories := []
    notifications := [notifHi]
    eventLogs := [logAliceCreated, logBobCreated, notificationSentLog msgHi] }

/-- The proposed edit of `msgHi` changing only the content. -/
def editHi : Message := { msgHi with content := "hello" }

/-- The proposed edit of `msgHi` changing only the subject. -/
def retitleHi : Message := { msgHi with subject := "salutation" }

/-- A fresh reply from bob to alice, not yet in the store. -/
def msgReply : Message :=
  { id := 2, sender := 2, receiver := 1, parent_message := some 1
    subject := "Re: greeting", content := "yo", is_read := false
    edited := false, timestamp := 5 }

/-- Two messages whose parent links form a 2-cycle (corrupt data). -/
def cycMsg1 : Message :=
  { id := 1, sender := 1, receiver := 2, parent_message := some 2
    subject := "a", content := "a", is_read := false, edited := false
    timestamp := 1 }

/-- Second message of the cycle. -/
def cycMsg2 : Message :=
  { id := 2, sender := 2, receiver := 1, parent_message := some 1
    subject := "b", content := "b", is_read := false, edited := false
    timestamp := 2 }

/-- The cyclic message table. -/
def cycMsgs : List Message := [cycMsg1, cycMsg2]

/-! ## Case lemmas for the save pipeline -/

/-- First save of a new pk: the pre-save handler does nothing. -/
theorem lme_none (s : Store) (inst : Message)
    (h : s.messages.find? (fun m => m.id == inst.id) = none) :
    log_message_edit s inst = (s, inst) := by
  simp only [log_message_edit, h]

/-- Content-changing edit: one snapshot, one audit event, flag set. -/
theorem lme_content (s : Store) (inst old : Message)
    (h : s.messages.find? (fun m => m.id == inst.id) = some old)
    (hc : old.content ≠ inst.content) :
    log_message_edit s inst =
      ({ s with
          histories := s.histories ++
            [{ message := inst.id, old_content := old.content,
               old_subject := old.subject, edited_by := some inst.sender }]
          eventLogs := s.eventLogs ++ [editEventLog s old inst] },
       { inst with edited := true }) := by
  simp only [log_message_edit, h]
  rw [if_pos (Or.inl hc), if_pos hc]
  rfl

/-- Subject-only edit: no snapshot, but an audit event and the flag set. -/
theorem lme_subject (s : Store) (inst old : Message)
    (h : s.messages.find? (fun m => m.id == inst.id) = some old)
    (hc : old.content = inst.content) (hs : old.subject ≠ inst.subject) :
    log_message_edit s inst =
      ({ s with eventLogs := s.eventLogs ++ [editEventLog s old inst] },
       { inst with edited := true }) := by
  simp only [log_message_edit, h]
  rw [if_pos (Or.inr hs), if_neg (by simpa using hc)]

/-- No-change save of an existing row: the handler does nothing. -/
theorem lme_unchanged (s : Store) (inst old : Message)
    (h : s.messages.find? (fun m => m.id == inst.id) = some old)
    (hc : old.content = inst.content) (hs : old.subject = inst.subject) :
    log_message_edit s inst = (s, inst) := by
  simp only [log_message_edit, h]
  rw [if_neg]
  push_neg
  exact ⟨hc, hs⟩

/-- A successful pk lookup makes the commit an UPDATE. -/
theorem commit_update (s : Store) (m old : Message)
    (h : s.messages.find? (fun x => x.id == m.id) = some old) :
    commitMessage s m =
      ({ s with messages :=
          s.messages.map (fun x => if x.id == m.id then m else x) }, false) := by
  have hp : (old.id == m.id) = true := by simpa using List.find?_some h
  have hany : (s.messages.any fun x => x.id == m.id) = true :=
    List.any_eq_true.mpr ⟨old, List.mem_of_find?_eq_some h, hp⟩
  unfold commitMessage
  rw [if_pos hany]

/-- A failed pk lookup makes the commit an INSERT. -/
theorem commit_insert (s : Store) (m : Message)
    (h : s.messages.find? (fun x => x.id == m.id) = none) :
    commitMessage s m = ({ s with messages := s.messages ++ [m] }, true) := by
  unfold commitMessage
  rw [if_neg]
  intro hany
  obtain ⟨x, hx, hpx⟩ := List.any_eq_true.mp hany
  exact absurd hpx (by simpa using List.find?_eq_none.mp h x hx)

/-! ## C1: history snapshots on edit -/

/-- Claim C1: saving a message that already exists with different stored
content creates exactly one MessageHistory snapshot of the prior content and
prior subject and commits the message with `edited = true`; when the stored
content equals the proposed content (subject-only changes included) no
history row is created; and saving a message whose pk is not in the store
takes no snapshot and raises no error (the row is simply inserted). -/
theorem save_message_history_contract (s : Store) (inst : Message) :
    (∀ old, s.messages.find? (fun m => m.id == inst.id) = some old →
      old.content ≠ inst.content →
        (saveMessage s inst).histories =
          s.histories ++
            [{ message := inst.id, old_content := old.content,
               old_subject := old.subject, edited_by := some inst.sender }] ∧
        (saveMessage s inst).messages =
          s.messages.map
            (fun x => if x.id == inst.id then { inst with edited := true } else x))
    ∧ (∀ old, s.messages.find? (fun m => m.id == inst.id) = some old →
        old.content = inst.content → (saveMessage s inst).histories = s.histories)
    ∧ (s.messages.find? (fun m => m.id == inst.id) = none →
        (saveMessage s inst).histories = s.histories ∧
        (saveMessage s inst).messages = s.messages ++ [inst]) := by
  refine ⟨?_, ?_, ?_⟩
  · intro old h hc
    have h2 : s.messages.find?
        (fun x => x.id == ({ inst with edited := true } : Message).id) = some old := h
    have e2 := commit_update
      ({ s with
          histories := s.histories ++
            [{ message := inst.id, old_content := old.content,
               old_subject := old.subject, edited_by := some inst.sender }]
          eventLogs := s.eventLogs ++ [editEventLog s old inst] })
      { inst with edited := true } old h2
    simp only [saveMessage, lme_content s inst old h hc, e2,
      create_notification_on_message, if_neg, Bool.false_eq_true, not_false_iff]
    constructor <;> first | rfl | trivial
  · intro old h hc
    by_cases hs : old.subject = inst.subject
    · have h2 : s.messages.find? (fun x => x.id == inst.id) = some old := h
      have e2 := commit_update s inst old h2
      simp only [saveMessage, lme_unchanged s inst old h hc hs, e2,
        create_notification_on_message, if_neg, Bool.false_eq_true, not_false_iff]
    · have h2 : s.messages.find?
          (fun x => x.id == ({ inst with edited := true } : Message).id) = some old := h
      have e2 := commit_update
        ({ s with eventLogs := s.eventLogs ++ [editEventLog s old inst] })
        { inst with edited := true } old h2
      simp only [saveMessage, lme_subject s inst old h hc hs, e2,
        create_notification_on_message, if_neg, Bool.false_eq_true, not_false_iff]
  · intro h
    have e2 := commit_insert s inst h
    simp only [saveMessage, lme_none s inst h, e2,
      create_notification_on_message, if_pos]
    constructor <;> first | rfl | trivial

/-- Witness for C1: editing the demo message's content from hi to hello
creates the single expected snapshot and sets the edited flag. -/
theorem save_message_history_contract_witness :
    (saveMessage demoStore editHi).histories =
      [{ message := 1, old_content := "hi", old_subject := "greeting",
         edited_by := some 1 }] ∧
    (saveMessage demoStore editHi).messages = [{ editHi with edited := true }] := by
  have h := (save_message_history_contract demoStore editHi).1 msgHi
    (by decide) (by decide)
  simpa using h

/-! ## C4: notification dispatch -/

/-- Appending a log of a different event type leaves a type count alone. -/
theorem filter_snoc_ne_type (logs : List EventLog) (e : EventLog) (t : String)
    (h : (e.event_type == t) = false) :
    ((logs ++ [e]).filter (fun x => x.event_type == t)).length =
      (logs.filter (fun x => x.event_type == t)).length := by
  simp [List.filter_append, List.filter, h]

/-- Claim C4: committing a new message creates exactly one Notification for
the receiver (type message_received, linked to the message, title and
description derived from the sender's username and the subject) plus exactly
one `notification_sent` EventLog carrying the message id, sender id, subject
and recipient id; updating an existing message creates no Notification and
no `notification_sent` entry. -/
theorem notification_dispatch_contract (s : Store) (inst : Message) :
    (s.messages.find? (fun m => m.id == inst.id) = none →
      (saveMessage s inst).notifications =
        s.notifications ++ [newMessageNotification s inst] ∧
      (saveMessage s inst).eventLogs = s.eventLogs ++ [notificationSentLog inst] ∧
      (newMessageNotification s inst).user = inst.receiver ∧
      (newMessageNotification s inst).notification_type = "message_received" ∧
      (newMessageNotification s inst).message = some inst.id ∧
      (newMessageNotification s inst).title =
        "New message from " ++ usernameOf s inst.sender ∧
      lookupMeta (notificationSentLog inst) "message_id" =
        some (MetaVal.nat inst.id) ∧
      lookupMeta (notificationSentLog inst) "sender_id" =
        some (MetaVal.nat inst.sender) ∧
      lookupMeta (notificationSentLog inst) "subject" =
        some (MetaVal.str inst.subject) ∧
      lookupMeta (notificationSentLog inst) "receiver_id" =
        some (MetaVal.nat inst.receiver))
    ∧ (∀ old, s.messages.find? (fun m => m.id == inst.id) = some old →
        (saveMessage s inst).notifications = s.notifications ∧
        countEventType (saveMessage s inst) "notification_sent" =
          countEventType s "notification_sent") := by
  constructor
  · intro h
    have e2 := commit_insert s inst h
    simp only [saveMessage, lme_none s inst h, e2,
      create_notification_on_message, if_pos]
    refine ⟨?_, ?_, ?_, ?_, ?_, ?_, ?_, ?_, ?_, ?_⟩ <;> first | rfl | trivial
  · intro old h
    by_cases hc : old.content = inst.content
    · by_cases hs : old.subject = inst.subject
      · have e2 := commit_update s inst old h
        simp only [saveMessage, lme_unchanged s inst old h hc hs, e2,
          create_notification_on_message, if_neg, Bool.false_eq_true,
          not_false_iff]
        constructor <;> first | rfl | trivial
      · have h2 : s.messages.find?
            (fun x => x.id == ({ inst with edited := true } : Message).id) =
              some old := h
        have e2 := commit_update
          ({ s with eventLogs := s.eventLogs ++ [editEventLog s old inst] })
          { inst with edited := true } old h2
        simp only [saveMessage, lme_subject s inst old h hc hs, e2,
          create_notification_on_message, if_neg, Bool.false_eq_true,
          not_false_iff]
        refine ⟨by first | rfl | trivial, ?_⟩
        simpa only [countEventType] using
          filter_snoc_ne_type s.eventLogs (editEventLog s old inst)
            "notification_sent" (by rfl)
    · have h2 : s.messages.find?
          (fun x => x.id == ({ inst with edited := true } : Message).id) =
            some old := h
      have e2 := commit_update
        ({ s with
            histories := s.histories ++
              [{ message := inst.id, old_content := old.content,
                 old_subject := old.subject, edited_by := some inst.sender }]
            eventLogs := s.eventLogs ++ [editEventLog s old inst] })
        { inst with edited := true } old h2
      simp only [saveMessage, lme_content s inst old h hc, e2,
        create_notification_on_message, if_neg, Bool.false_eq_true,
        not_false_iff]
      refine ⟨by first | rfl | trivial, ?_⟩
      simpa only [countEventType] using
        filter_snoc_ne_type s.eventLogs (editEventLog s old inst)
          "notification_sent" (by rfl)

/-- Witness for C4: sending the fresh reply creates its notification and its
`notification_sent` audit event, and re-saving the existing demo message
unchanged creates neither. -/
theorem notification_dispatch_contract_witness :
    (saveMessage demoStore msgReply).notifications =
      demoStore.notifications ++ [newMessageNotification demoStore msgReply] ∧
    (saveMessage demoStore msgHi).notifications = demoStore.notifications := by
  refine ⟨((notification_dispatch_contract demoStore msgReply).1 (by decide)).1, ?_⟩
  exact (((notification_dispatch_contract demoStore msgHi).2) msgHi (by decide)).1

/-! ## C9: subject-only edits -/

/-- Claim C9: saving an existing message with the subject changed but the
content unchanged still commits the message with `edited = true` and appends
one EventLog of type user_updated describing the edit, while creating no
MessageHistory row. -/
theorem subject_only_edit_contract (s : Store) (inst old : Message)
    (h : s.messages.find? (fun m => m.id == inst.id) = some old)
    (hc : old.content = inst.content) (hs : old.subject ≠ inst.subject) :
    (saveMessage s inst).messages =
      s.messages.map
        (fun x => if x.id == inst.id then { inst with edited := true } else x) ∧
    (saveMessage s inst).histories = s.histories ∧
    (saveMessage s inst).eventLogs = s.eventLogs ++ [editEventLog s old inst] ∧
    (editEventLog s old inst).event_type = "user_updated" := by
  have h2 : s.messages.find?
      (fun x => x.id == ({ inst with edited := true } : Message).id) =
        some old := h
  have e2 := commit_update
    ({ s with eventLogs := s.eventLogs ++ [editEventLog s old inst] })
    { inst with edited := true } old h2
  simp only [saveMessage, lme_subject s inst old h hc hs, e2,
    create_notification_on_message, if_neg, Bool.false_eq_true, not_false_iff]
  refine ⟨?_, ?_, ?_, ?_⟩ <;> first | rfl | trivial

/-- Witness for C9: retitling the demo message flips its edited flag and
logs a user_updated event without creating a history row. -/
theorem subject_only_edit_contract_witness :
    (saveMessage demoStore retitleHi).messages =
      [{ retitleHi with edited := true }] ∧
    (saveMessage demoStore retitleHi).histories = [] ∧
    (saveMessage demoStore retitleHi).eventLogs =
      demoStore.eventLogs ++ [editEventLog demoStore msgHi retitleHi] := by
  have h := subject_only_edit_contract demoStore retitleHi msgHi
    (by decide) (by decide) (by decide)
  exact ⟨by simpa using h.1, h.2.1, h.2.2.1⟩

/-! ## C10 and C8: mark_as_read -/

/-- With distinct pks, a predicate that pins the pk finds exactly the row. -/
theorem find_eq_some_of_nodup (l : List Message)
    (hN : (l.map (fun x => x.id)).Nodup) (m : Message) (hm : m ∈ l)
    (p : Message → Bool) (hp : p m = true)
    (hid : ∀ x, p x = true → x.id = m.id) :
    l.find? p = some m := by
  induction l with
  | nil => cases hm
  | cons a t ih =>
    by_cases hpa : p a = true
    · rw [List.find?_cons_of_pos _ hpa]
      rcases List.mem_cons.mp hm with rfl | hmt
      · rfl
      · exfalso
        have hida : a.id = m.id := hid a hpa
        have hnotmem := (List.nodup_cons.mp hN).1
        have hmm : m.id ∈ t.map (fun x => x.id) :=
          List.mem_map_of_mem (fun x => x.id) hmt
        exact hnotmem (by show a.id ∈ t.map (fun x => x.id); rw [hida]; exact hmm)
    · rw [List.find?_cons_of_neg _ hpa]
      rcases List.mem_cons.mp hm with rfl | hmt
      · exact absurd hp hpa
      · exact ih (List.nodup_cons.mp hN).2 hmt

/-- Claim C10: when the receiver marks a message as read, the only change in
the whole store is that message's `is_read` field: every other field of the
row, every other message, and all histories, notifications, users and event
logs are untouched. -/
theorem mark_as_read_frame (s : Store) (m : Message) (u : Nat)
    (hN : (s.messages.map (fun x => x.id)).Nodup) (hm : m ∈ s.messages)
    (hr : m.receiver = u) :
    mark_as_read s u m.id =
      ({ s with messages := s.messages.map (fun x =>
          if x.id == m.id then { m with is_read := true } else x) },
       ViewResult.ok) := by
  have hfind1 : s.messages.find?
      (fun x => x.id == m.id && x.receiver == u) = some m := by
    refine find_eq_some_of_nodup _ hN m hm _ (by simp [hr]) ?_
    intro x hx
    simp only [Bool.and_eq_true, beq_iff_eq] at hx
    exact hx.1
  have hfind2 : s.messages.find?
      (fun x => x.id == ({ m with is_read := true } : Message).id) = some m := by
    refine find_eq_some_of_nodup _ hN m hm _ (by simp) ?_
    intro x hx
    simpa using hx
  have e1 := lme_unchanged s { m with is_read := true } m hfind2 rfl rfl
  have e2 := commit_update s { m with is_read := true } m hfind2
  simp only [mark_as_read, hfind1, saveMessage, e1, e2,
    create_notification_on_message, if_neg, Bool.false_eq_true, not_false_iff]

/-- Witness for C10: bob marking the demo message read flips exactly its
read flag. -/
theorem mark_as_read_frame_witness :
    mark_as_read demoStore 2 1 =
      ({ demoStore with messages := [{ msgHi with is_read := true }] },
       ViewResult.ok) := by
  have h := mark_as_read_frame demoStore msgHi 2 (by decide) (by decide) rfl
  simpa using h

/-- Counterexample for C8: the sender (not the receiver) asking to mark the
demo message read receives the not-found outcome, not the
permission-denied outcome the claim requires, with the store unchanged. -/
theorem mark_nonreceiver_not_found_cex :
    mark_as_read demoStore 1 1 = (demoStore, ViewResult.notFound) ∧
    ViewResult.notFound ≠ ViewResult.permissionDenied := by
  constructor
  · rfl
  · decide

/-- Claim C8 (amended): an attempt by an actor who is not the message's
receiver to mark it read surfaces the not-found result (HTTP 404 Message
not found) rather than PermissionError, and leaves the store unchanged;
only the receiver can flip the read flag. -/
theorem mark_as_read_nonreceiver_404 (s : Store) (actor mid : Nat)
    (h : ∀ m, m ∈ s.messages → m.id = mid → m.receiver ≠ actor) :
    mark_as_read s actor mid = (s, ViewResult.notFound) := by
  have hfind : s.messages.find?
      (fun m => m.id == mid && m.receiver == actor) = none := by
    rw [List.find?_eq_none]
    intro m hm
    simp only [Bool.and_eq_true, beq_iff_eq, not_and]
    intro h1 h2
    exact h m hm h1 h2
  simp only [mark_as_read, hfind]

/-- Witness for C8's amended theorem at a concrete non-receiver. -/
theorem mark_as_read_nonreceiver_404_witness :
    mark_as_read demoStore 3 1 = (demoStore, ViewResult.notFound) :=
  mark_as_read_nonreceiver_404 demoStore 3 1 (by decide)

/-! ## C6: unread query helper -/

/-- Claim C6: `unread_for_user` returns exactly the messages whose receiver
is the user and whose read flag is false, ordered by timestamp descending,
and `unread_count_for_user` equals the length of that list. -/
theorem unread_query_contract (s : Store) (uid : Nat) :
    (∀ m, m ∈ unread_for_user s uid ↔
      (m ∈ s.messages ∧ m.receiver = uid ∧ m.is_read = false))
    ∧ List.Sorted tsGE (unread_for_user s uid)
    ∧ unread_count_for_user s uid = (unread_for_user s uid).length := by
  refine ⟨?_, ?_, ?_⟩
  · intro m
    unfold unread_for_user
    rw [List.mem_insertionSort]
    simp [List.mem_filter, and_assoc]
  · exact List.sorted_insertionSort tsGE _
  · unfold unread_count_for_user unread_for_user
    rw [List.length_insertionSort]

/-- Witness for C6 at the demo store: bob has exactly his one unread
message and the count agrees. -/
theorem unread_query_contract_witness :
    (msgHi ∈ unread_for_user demoStore 2 ↔
      (msgHi ∈ demoStore.messages ∧ msgHi.receiver = 2 ∧ msgHi.is_read = false))
    ∧ unread_count_for_user demoStore 2 = (unread_for_user demoStore 2).length :=
  ⟨(unread_query_contract demoStore 2).1 msgHi,
   (unread_query_contract demoStore 2).2.2⟩

/-! ## C3: thread assembly termination -/

/-- On the cyclic pair, neither message's ascent finishes with any fuel. -/
theorem cyc_ascend_aux : ∀ n, resolveRootFuel cycMsgs cycMsg1 n = none ∧
    resolveRootFuel cycMsgs cycMsg2 n = none := by
  intro n
  induction n with
  | zero => exact ⟨rfl, rfl⟩
  | succ k ih => exact ⟨ih.2, ih.1⟩

/-- On the cyclic pair, neither reply tree finishes with any fuel. -/
theorem cyc_build_aux : ∀ n,
    (∀ d, buildThreadFuel cycMsgs n cycMsg1 d = none) ∧
    (∀ d, buildThreadFuel cycMsgs n cycMsg2 d = none) := by
  intro n
  induction n with
  | zero => exact ⟨fun _ => rfl, fun _ => rfl⟩
  | succ k ih =>
    constructor
    · intro d
      show (match seqThreads ([cycMsg2].map
            (fun r => buildThreadFuel cycMsgs k r (d + 1))) with
        | none => none
        | some kids => some (Thread.node cycMsg1 d kids)) = none
      rw [List.map_cons, List.map_nil, ih.2 (d + 1)]
      rfl
    · intro d
      show (match seqThreads ([cycMsg1].map
            (fun r => buildThreadFuel cycMsgs k r (d + 1))) with
        | none => none
        | some kids => some (Thread.node cycMsg2 d kids)) = none
      rw [List.map_cons, List.map_nil, ih.1 (d + 1)]
      rfl

/-- Counterexample for C3: on a parent chain containing a cycle, the
root-resolution loop and the reply-tree recursion never terminate, and in
particular no ThreadIntegrityError is raised (the code has no such error
path: the only outcomes are a found root or a dangling parent). -/
theorem thread_cycle_loops_cex :
    ascendsForever cycMsgs cycMsg1 ∧ buildsForever cycMsgs cycMsg1 :=
  ⟨fun n => (cyc_ascend_aux n).1, fun n => (cyc_build_aux n).1 0⟩

/-- Pointwise implication between filters cannot grow the length. -/
theorem filter_length_mono {α : Type} (l : List α) (p q : α → Bool)
    (h : ∀ x ∈ l, p x = true → q x = true) :
    (l.filter p).length ≤ (l.filter q).length := by
  induction l with
  | nil => simp
  | cons a t ih =>
    have ih2 := ih (fun x hx => h x (List.mem_cons_of_mem a hx))
    by_cases hpa : p a = true
    · have hqa := h a (List.mem_cons_self a t) hpa
      simp only [List.filter_cons, hpa, hqa, if_pos, List.length_cons]
      omega
    · have hpa2 : p a = false := by simpa using hpa
      by_cases hqa : q a = true
      · simp only [List.filter_cons, hpa2, hqa]
        simp only [Bool.false_eq_true, if_false, if_pos, List.length_cons]
        omega
      · have hqa2 : q a = false := by simpa using hqa
        simp only [List.filter_cons, hpa2, hqa2, Bool.false_eq_true, if_false]
        exact ih2

/-- Pointwise implication plus one strict witness shrinks the length. -/
theorem filter_length_strict {α : Type} (l : List α) (p q : α → Bool)
    (h : ∀ x ∈ l, p x = true → q x = true) (x : α) (hx : x ∈ l)
    (hqx : q x = true) (hpx : p x = false) :
    (l.filter p).length < (l.filter q).length := by
  induction l with
  | nil => cases hx
  | cons a t ih =>
    rcases List.mem_cons.mp hx with rfl | hxt
    · have hmono := filter_length_mono t p q
        (fun y hy => h y (List.mem_cons_of_mem _ hy))
      simp only [List.filter_cons, hpx, hqx, Bool.false_eq_true, if_false,
        if_pos, List.length_cons]
      omega
    · have ih2 := ih (fun y hy => h y (List.mem_cons_of_mem a hy)) hxt
      by_cases hpa : p a = true
      · have hqa := h a (List.mem_cons_self a t) hpa
        simp only [List.filter_cons, hpa, hqa, if_pos, List.length_cons]
        omega
      · have hpa2 : p a = false := by simpa using hpa
        by_cases hqa : q a = true
        · simp only [List.filter_cons, hpa2, hqa, Bool.false_eq_true,
            if_false, if_pos, List.length_cons]
          omega
        · have hqa2 : q a = false := by simpa using hqa
          simp only [List.filter_cons, hpa2, hqa2, Bool.false_eq_true, if_false]
          exact ih2

/-- Sequencing the recursive calls cannot fail when none of them fails. -/
theorem seqThreads_map_ne_none (l : List Message) (f : Message → Option Thread)
    (h : ∀ r ∈ l, f r ≠ none) : seqThreads (l.map f) ≠ none := by
  induction l with
  | nil => simp [seqThreads]
  | cons a t ih =>
    have ha := h a (List.mem_cons_self a t)
    cases hfa : f a with
    | none => exact absurd hfa ha
    | some v =>
      have ih2 := ih (fun r hr => h r (List.mem_cons_of_mem a hr))
      simp only [List.map_cons, seqThreads, hfa]
      cases hs : seqThreads (t.map f) with
      | none => exact absurd hs ih2
      | some ts => simp

/-- With decreasing parent links, the ascent ends within `m.id + 1` steps. -/
theorem resolveRoot_term_aux (msgs : List Message)
    (hpd : ParentsDecreasing msgs) :
    ∀ n m, m ∈ msgs → m.id < n → resolveRootFuel msgs m n ≠ none := by
  intro n
  induction n with
  | zero => exact fun m _ h => absurd h (Nat.not_lt_zero _)
  | succ k ih =>
    intro m hm hlt
    cases hpm : m.parent_message with
    | none => simp [resolveRootFuel, hpm]
    | some pid =>
      cases hf : msgs.find? (fun x => x.id == pid) with
      | none => simp [resolveRootFuel, hpm, hf]
      | some p =>
        have hpmem : p ∈ msgs := List.mem_of_find?_eq_some hf
        have hpid : p.id = pid := by simpa using List.find?_some hf
        have hdec : pid < m.id := hpd m hm pid hpm
        simp only [resolveRootFuel, hpm, hf]
        exact ih p hpmem (by omega)

/-- With decreasing parent links, the reply-tree recursion ends within a
fuel of one more than the number of later-created messages. -/
theorem buildThread_term_aux (msgs : List Message)
    (hpd : ParentsDecreasing msgs) :
    ∀ n m d, m ∈ msgs →
      (msgs.filter (fun x => m.id < x.id)).length < n →
      buildThreadFuel msgs n m d ≠ none := by
  intro n
  induction n with
  | zero => exact fun m d _ h => absurd h (Nat.not_lt_zero _)
  | succ k ih =>
    intro m d hm hlt
    have hrec : ∀ r ∈ repliesOf msgs m,
        buildThreadFuel msgs k r (d + 1) ≠ none := by
      intro r hr
      have hrf : r ∈ msgs.filter (fun x => x.parent_message == some m.id) := by
        have := List.mem_insertionSort (r := tsLE) (l :=
          msgs.filter (fun x => x.parent_message == some m.id)) (x := r)
        exact this.mp hr
      have hrmem : r ∈ msgs := (List.mem_filter.mp hrf).1
      have hparent : r.parent_message = some m.id := by
        simpa using (List.mem_filter.mp hrf).2
      have hmr : m.id < r.id := hpd r hrmem m.id hparent
      have hstrict : (msgs.filter (fun x => r.id < x.id)).length <
          (msgs.filter (fun x => m.id < x.id)).length := by
        refine filter_length_strict msgs _ _ ?_ r hrmem (by simpa using hmr)
          (by simp)
        intro y _ hy
        simp only [decide_eq_true_eq] at hy ⊢
        omega
      exact ih r (d + 1) hrmem (by omega)
    have hseq := seqThreads_map_ne_none (repliesOf msgs m)
      (fun r => buildThreadFuel msgs k r (d + 1)) hrec
    simp only [buildThreadFuel]
    cases hs : seqThreads ((repliesOf msgs m).map
        (fun r => buildThreadFuel msgs k r (d + 1))) with
    | none => exact absurd hs hseq
    | some kids => simp

/-- Claim C3 (amended): on every store whose parent links point at earlier
(smaller-id) messages — the invariant normal operation maintains — both the
root-resolution ascent and the reply-tree recursion terminate; on a parent
chain containing a cycle they loop forever and never raise a
ThreadIntegrityError, since the code defines no such error. -/
theorem thread_assembly_terminates_acyclic (msgs : List Message) (m : Message)
    (hpd : ParentsDecreasing msgs) (hm : m ∈ msgs) :
    resolveRootFuel msgs m (m.id + 1) ≠ none ∧
    buildThreadFuel msgs (msgs.length + 1) m 0 ≠ none :=
  ⟨resolveRoot_term_aux msgs hpd (m.id + 1) m hm (Nat.lt_succ_self _),
   buildThread_term_aux msgs hpd (msgs.length + 1) m 0 hm
     (Nat.lt_succ_of_le (List.length_filter_le _ _))⟩

/-- Witness for C3's amended theorem on a two-message acyclic thread. -/
theorem thread_assembly_terminates_acyclic_witness :
    resolveRootFuel [msgHi, msgReply] msgReply (msgReply.id + 1) ≠ none ∧
    buildThreadFuel [msgHi, msgReply] ([msgHi, msgReply].length + 1)
      msgReply 0 ≠ none := by
  refine thread_assembly_terminates_acyclic [msgHi, msgReply] msgReply ?_
    (by decide)
  intro m hm p hp
  rcases List.mem_cons.mp hm with rfl | hm2
  · simp [msgHi] at hp
  · rcases List.mem_cons.mp hm2 with rfl | hm3
    · simp [msgReply] at hp ⊢
      omega
    · cases hm3

/-! ## C7: snapshot / edited-flag atomicity -/

/-- Counterexample for C7: the content edit of the demo message with a
failed row commit leaves a reachable post-state in which the history
snapshot took effect while the stored message's edited flag (and content)
did not — the two writes are not one atomic unit. -/
theorem snapshot_without_flag_cex :
    (saveMessageFallible demoStore editHi false).histories =
      [{ message := 1, old_content := "hi", old_subject := "greeting",
         edited_by := some 1 }] ∧
    (saveMessageFallible demoStore editHi false).messages = [msgHi] ∧
    msgHi.edited = false ∧ msgHi.content = "hi" := by
  refine ⟨?_, ?_, rfl, rfl⟩ <;> rfl

/-- Claim C7 (amended): the history snapshot is committed by the pre-save
handler before the row update; when the update succeeds both the snapshot
and the edited flag take effect, but when the update fails the snapshot
persists while the stored messages — edited flag included — are unchanged:
the flag flip and the snapshot write are not rolled back together. -/
theorem edit_snapshot_two_phase (s : Store) (inst old : Message)
    (h : s.messages.find? (fun m => m.id == inst.id) = some old)
    (hc : old.content ≠ inst.content) :
    ((saveMessageFallible s inst true).histories =
        s.histories ++
          [{ message := inst.id, old_content := old.content,
             old_subject := old.subject, edited_by := some inst.sender }] ∧
      (saveMessageFallible s inst true).messages =
        s.messages.map
          (fun x => if x.id == inst.id then { inst with edited := true } else x))
    ∧ ((saveMessageFallible s inst false).histories =
        s.histories ++
          [{ message := inst.id, old_content := old.content,
             old_subject := old.subject, edited_by := some inst.sender }] ∧
      (saveMessageFallible s inst false).messages = s.messages) := by
  constructor
  · have hmain := (save_message_history_contract s inst).1 old h hc
    exact ⟨hmain.1, hmain.2⟩
  · simp only [saveMessageFallible, Bool.false_eq_true, if_false,
      lme_content s inst old h hc]
    constructor <;> first | rfl | trivial

/-- Witness for C7's amended theorem: the demo content edit, with the
commit succeeding and with it failing. -/
theorem edit_snapshot_two_phase_witness :
    (saveMessageFallible demoStore editHi true).messages =
      [{ editHi with edited := true }] ∧
    (saveMessageFallible demoStore editHi false).messages = [msgHi] := by
  have h := edit_snapshot_two_phase demoStore editHi msgHi (by decide) (by decide)
  exact ⟨by simpa using h.1.2, h.2.2⟩

/-! ## C2 and C5: user deletion -/

/-- An empty collector round adds nothing. -/
theorem expandReplies_nil (msgs : List Message) : expandReplies msgs [] = [] := by
  have h : msgs.filter (fun m =>
      !([] : List Nat).contains m.id &&
      (match m.parent_message with
       | some p => ([] : List Nat).contains p
       | none => false)) = [] := by
    apply List.filter_eq_nil_iff.mpr
    intro m _
    cases m.parent_message <;> simp
  unfold expandReplies
  rw [h]
  rfl

/-- Iterating the collector from the empty base stays empty. -/
theorem replyClosure_nil (msgs : List Message) :
    ∀ n, replyClosure msgs [] n = [] := by
  intro n
  induction n with
  | zero => rfl
  | succ k ih =>
    show replyClosure msgs (expandReplies msgs []) k = []
    rw [expandReplies_nil]
    exact ih

/-- Cascading from an empty base deletes nothing. -/
theorem msgCascade_nil (msgs : List Message) : msgCascade msgs [] = [] :=
  replyClosure_nil msgs msgs.length

/-- The collector never drops what it has already collected. -/
theorem mem_replyClosure_of_base (msgs : List Message) :
    ∀ (n : Nat) (dead : List Nat) (x : Nat), x ∈ dead →
      x ∈ replyClosure msgs dead n := by
  intro n
  induction n with
  | zero => exact fun dead x hx => hx
  | succ k ih =>
    intro dead x hx
    exact ih (expandReplies msgs dead) x (List.mem_append_left _ hx)

/-- The cascade contains its base set. -/
theorem mem_msgCascade_of_base (msgs : List Message) (base : List Nat)
    (x : Nat) (hx : x ∈ base) : x ∈ msgCascade msgs base :=
  mem_replyClosure_of_base msgs msgs.length base x hx

/-- After the user cascade no surviving message involves the user. -/
theorem mem_userCascade_messages (s : Store) (uid : Nat) (m : Message)
    (hm : m ∈ (userCascade s uid).messages) :
    m ∈ s.messages ∧ m.sender ≠ uid ∧ m.receiver ≠ uid := by
  simp only [userCascade] at hm
  have h1 := List.mem_filter.mp hm
  have hnot : m.id ∉ msgCascade s.messages
      ((s.messages.filter (fun x => x.sender == uid || x.receiver == uid)).map
        (fun x => x.id)) := by
    simpa using h1.2
  refine ⟨h1.1, ?_, ?_⟩
  · intro hs
    apply hnot
    apply mem_msgCascade_of_base
    exact List.mem_map_of_mem _ (List.mem_filter.mpr ⟨h1.1, by simp [hs]⟩)
  · intro hs
    apply hnot
    apply mem_msgCascade_of_base
    exact List.mem_map_of_mem _ (List.mem_filter.mpr ⟨h1.1, by simp [hs]⟩)

/-- After the user cascade no surviving notification targets the user. -/
theorem mem_userCascade_notifications (s : Store) (uid : Nat)
    (n : Notification) (hn : n ∈ (userCascade s uid).notifications) :
    (n.user == uid) = false := by
  simp only [userCascade] at hn
  have h2 := (List.mem_filter.mp hn).2
  simp only [Bool.and_eq_true, Bool.not_eq_true'] at h2
  exact h2.1

/-- A history deletion whose predicate matches nothing is a no-op. -/
theorem deleteHistoriesWhere_nil (s' : Store) (p : MessageHistory → Bool)
    (hp : ∀ h ∈ s'.histories, p h = false) :
    deleteHistoriesWhere s' p = (s', 0) := by
  have e1 : s'.histories.filter (fun h => !p h) = s'.histories :=
    List.filter_eq_self.mpr (fun h hh => by rw [hp h hh]; rfl)
  have e2 : s'.histories.filter p = [] :=
    List.filter_eq_nil_iff.mpr (fun h hh => by rw [hp h hh]; simp)
  unfold deleteHistoriesWhere
  rw [e1, e2]
  rfl

/-- A notification deletion whose predicate matches nothing is a no-op. -/
theorem deleteNotificationsWhere_nil (s' : Store) (p : Notification → Bool)
    (hp : ∀ n ∈ s'.notifications, p n = false) :
    deleteNotificationsWhere s' p = (s', 0) := by
  have e1 : s'.notifications.filter (fun n => !p n) = s'.notifications :=
    List.filter_eq_self.mpr (fun n hn => by rw [hp n hn]; rfl)
  have e2 : s'.notifications.filter p = [] :=
    List.filter_eq_nil_iff.mpr (fun n hn => by rw [hp n hn]; simp)
  unfold deleteNotificationsWhere
  rw [e1, e2]
  rfl

/-- A message deletion whose predicate matches nothing is a no-op: its
cascade starts from an empty base. -/
theorem deleteMessagesWhere_nil (s' : Store) (p : Message → Bool)
    (hp : ∀ m ∈ s'.messages, p m = false) :
    deleteMessagesWhere s' p = (s', 0) := by
  have hbase : s'.messages.filter p = [] :=
    List.filter_eq_nil_iff.mpr (fun m hm => by rw [hp m hm]; simp)
  simp only [deleteMessagesWhere, hbase, List.map_nil, msgCascade_nil]
  have em : s'.messages.filter (fun m => !([] : List Nat).contains m.id) =
      s'.messages := List.filter_eq_self.mpr (fun a _ => rfl)
  have eh : s'.histories.filter
      (fun h => !([] : List Nat).contains h.message) = s'.histories :=
    List.filter_eq_self.mpr (fun a _ => rfl)
  have en : s'.notifications.filter (fun n =>
      match n.message with
      | some mid => !([] : List Nat).contains mid
      | none => true) = s'.notifications :=
    List.filter_eq_self.mpr (fun a _ => by cases ha : a.message <;> simp [ha])
  have cm : s'.messages.filter (fun m => ([] : List Nat).contains m.id) = [] :=
    List.filter_eq_nil_iff.mpr (fun a _ => by simp)
  have ch : s'.histories.filter
      (fun h => ([] : List Nat).contains h.message) = [] :=
    List.filter_eq_nil_iff.mpr (fun a _ => by simp)
  have cn : s'.notifications.filter (fun n =>
      match n.message with
      | some mid => ([] : List Nat).contains mid
      | none => false) = [] :=
    List.filter_eq_nil_iff.mpr (fun a _ => by cases ha : a.message <;> simp [ha])
  rw [em, eh, en, cm, ch, cn]
  rfl

/-- Running `cleanup_user_data` on the post-cascade store deletes nothing
and reports four zero counts in its single summary event. -/
theorem cleanup_after_cascade (s : Store) (uid : Nat) (username : String) :
    cleanup_user_data (userCascade s uid) username uid =
      ({ userCascade s uid with eventLogs :=
          (userCascade s uid).eventLogs ++
            [userDeletedLog username uid ⟨0, 0, 0, 0⟩] },
       (⟨0, 0, 0, 0⟩ : CleanupCounts)) := by
  have hpt1 : ∀ h ∈ (userCascade s uid).histories,
      histSenderIs (userCascade s uid).messages h uid = false := by
    intro h _
    by_contra hne
    have hany : ((userCascade s uid).messages.any
        (fun m => m.id == h.message && m.sender == uid)) = true := by
      simpa [histSenderIs] using hne
    obtain ⟨m, hm, hcond⟩ := List.any_eq_true.mp hany
    simp only [Bool.and_eq_true, beq_iff_eq] at hcond
    exact (mem_userCascade_messages s uid m hm).2.1 hcond.2
  have hpt2 : ∀ m ∈ (userCascade s uid).messages, (m.sender == uid) = false := by
    intro m hm
    simpa using (mem_userCascade_messages s uid m hm).2.1
  have hpt3 : ∀ m ∈ (userCascade s uid).messages,
      (m.receiver == uid) = false := by
    intro m hm
    simpa using (mem_userCascade_messages s uid m hm).2.2
  have hpt4 : ∀ n ∈ (userCascade s uid).notifications,
      (n.user == uid) = false :=
    fun n hn => mem_userCascade_notifications s uid n hn
  have E1 := deleteHistoriesWhere_nil (userCascade s uid)
    (fun h => histSenderIs (userCascade s uid).messages h uid) hpt1
  have E2 := deleteMessagesWhere_nil (userCascade s uid)
    (fun m => m.sender == uid) hpt2
  have E3 := deleteMessagesWhere_nil (userCascade s uid)
    (fun m => m.receiver == uid) hpt3
  have E4 := deleteNotificationsWhere_nil (userCascade s uid)
    (fun n => n.user == uid) hpt4
  simp only [cleanup_user_data, E1, E2, E3, E4]

/-- Counterexample for C2: deleting alice from the demo store actually
removes one message she sent and one notification, yet the summary event
reports zero in every category, because the post-delete handler runs after
the foreign-key cascade has already emptied the affected tables. -/
theorem cleanup_report_mismatch_cex :
    (deleteUser demoStore 1).2.sent = 0 ∧
    (deleteUser demoStore 1).2.notifications = 0 ∧
    (demoStore.messages.filter (fun m => m.sender == 1)).length = 1 ∧
    ((deleteUser demoStore 1).1.messages.filter
      (fun m => m.sender == 1)).length = 0 ∧
    demoStore.notifications.length = 1 ∧
    (deleteUser demoStore 1).1.notifications.length = 0 := by
  decide

/-- Claim C2 (amended): user deletion emits exactly one `user_deleted`
summary EventLog from the cleanup handler, but since the handler runs after
the foreign-key cascade has removed every row referencing the user, all
four per-category counts it reports are zero — not the number of rows each
category actually lost — and the reported total is their sum, zero. -/
theorem cleanup_report_counts_zero (s : Store) (uid : Nat) :
    deleteUser s uid =
      ({ userCascade s uid with eventLogs :=
          (userCascade s uid).eventLogs ++
            [userDeletedLog (usernameOf s uid) uid ⟨0, 0, 0, 0⟩] },
       (⟨0, 0, 0, 0⟩ : CleanupCounts)) ∧
    (userDeletedLog (usernameOf s uid) uid ⟨0, 0, 0, 0⟩).event_type =
      "user_deleted" ∧
    lookupMeta (userDeletedLog (usernameOf s uid) uid ⟨0, 0, 0, 0⟩)
      "total_deleted" = some (MetaVal.nat 0) :=
  ⟨cleanup_after_cascade s uid (usernameOf s uid), rfl, rfl⟩

/-- Counterexample for C5: deleting alice removes her `user_created`
EventLog row — user deletion does delete EventLog entries. -/
theorem user_delete_removes_event_log_cex :
    logAliceCreated ∈ demoStore.eventLogs ∧
    logAliceCreated ∉ (deleteUser demoStore 1).1.eventLogs := by
  decide

/-- Claim C5 (amended): message-save pipeline operations only append to the
EventLog, but deleting a user cascade-removes every EventLog entry whose
`related_user` is that user (`on_delete=CASCADE`); only entries without the
user reference survive, among them the cleanup summary, which carries
`related_user = null` and records the username and user id as plain
metadata, so the summary outlives the user. -/
theorem event_log_retention_contract (s : Store) (uid : Nat) (inst : Message) :
    (deleteUser s uid).1.eventLogs =
      s.eventLogs.filter (fun e => e.related_user != some uid) ++
        [userDeletedLog (usernameOf s uid) uid ⟨0, 0, 0, 0⟩] ∧
    (userDeletedLog (usernameOf s uid) uid ⟨0, 0, 0, 0⟩).related_user = none ∧
    lookupMeta (userDeletedLog (usernameOf s uid) uid ⟨0, 0, 0, 0⟩)
      "username" = some (MetaVal.str (usernameOf s uid)) ∧
    lookupMeta (userDeletedLog (usernameOf s uid) uid ⟨0, 0, 0, 0⟩)
      "user_id" = some (MetaVal.nat uid) ∧
    (∃ extra, (saveMessage s inst).eventLogs = s.eventLogs ++ extra) := by
  refine ⟨?_, rfl, rfl, rfl, ?_⟩
  · have h := cleanup_after_cascade s uid (usernameOf s uid)
    show (cleanup_user_data (userCascade s uid) (usernameOf s uid)
        uid).1.eventLogs = _
    rw [h]
    rfl
  · cases hfind : s.messages.find? (fun m => m.id == inst.id) with
    | none =>
      refine ⟨[notificationSentLog inst], ?_⟩
      have e2 := commit_insert s inst hfind
      simp only [saveMessage, lme_none s inst hfind, e2,
        create_notification_on_message, if_pos]
    | some old =>
      by_cases hc : old.content = inst.content
      · by_cases hs2 : old.subject = inst.subject
        · refine ⟨[], ?_⟩
          have e2 := commit_update s inst old hfind
          simp only [saveMessage, lme_unchanged s inst old hfind hc hs2, e2,
            create_notification_on_message, if_neg, Bool.false_eq_true,
            not_false_iff, List.append_nil]
        · refine ⟨[editEventLog s old inst], ?_⟩
          have h2 : s.messages.find?
              (fun x => x.id == ({ inst with edited := true } : Message).id) =
                some old := hfind
          have e2 := commit_update
            ({ s with eventLogs := s.eventLogs ++ [editEventLog s old inst] })
            { inst with edited := true } old h2
          simp only [saveMessage, lme_subject s inst old hfind hc hs2, e2,
            create_notification_on_message, if_neg, Bool.false_eq_true,
            not_false_iff]
      · refine ⟨[editEventLog s old inst], ?_⟩
        have h2 : s.messages.find?
            (fun x => x.id == ({ inst with edited := true } : Message).id) =
              some old := hfind
        have e2 := commit_update
          ({ s with
              histories := s.histories ++
                [{ message := inst.id, old_content := old.content,
                   old_subject := old.subject, edited_by := some inst.sender }]
              eventLogs := s.eventLogs ++ [editEventLog s old inst] })
          { inst with edited := true } old h2
        simp only [saveMessage, lme_content s inst old hfind hc, e2,
          create_notification_on_message, if_neg, Bool.false_eq_true,
          not_false_iff]
